import Mathlib

/-!
# Verification of `superduperdb/ext/jina/client.py`

A shallow embedding of the Jina embeddings client:
constants, the per-call response processing of `encode_batch` and
`aencode_batch`, the transient-error classification from the module-level
`retry` decorator, the retry loop (modelled from the spec, as
`superduperdb.misc.retry.Retry` is outside the provided sources), and the
constructor's credential resolution (with `get_key` likewise modelled from
the spec).

Embeddings are carried opaquely: the client never computes with the float
entries, it only moves them, so they are represented by an arbitrary type
`α` (instantiated with `List ℚ` in the claims, where decimal literals such
as `0.1` denote the exact rationals the scenarios name).
-/

namespace JinaClient

open List

/-- `JINA_API_URL` from `client.py`. -/
def JINA_API_URL : String := "https://api.jina.ai/v1/embeddings"

/-- `KEY_NAME` from `client.py`. -/
def KEY_NAME : String := "JINA_API_KEY"

/-- Default value of the `model_name` parameter of `JinaAPIClient.__init__`. -/
def DEFAULT_MODEL : String := "jina-embeddings-v2-base-en"

/-- One element of the `data` array of a service response:
a dict with an `index` field and an `embedding` field. -/
structure ResponseItem (α : Type) where
  index : Int
  embedding : α
  deriving DecidableEq, Repr

/-- The parsed JSON body of a service response, restricted to the keys the
client reads: an optional `data` array and an optional `detail` message. -/
structure ResponseBody (α : Type) where
  data : Option (List (ResponseItem α))
  detail : Option String
  deriving DecidableEq, Repr

/-- What one HTTP exchange with the service can yield, before either code
path interprets it: a connection failure, or a response with an HTTP status
code and a parsed JSON body. -/
inductive TransportEvent (α : Type) where
  | connFailure
  | response (status : Nat) (body : ResponseBody α)
  deriving DecidableEq, Repr

/-- The Python exceptions the two code paths can raise or declare:
`RuntimeError(response["detail"])` is `serviceError`; a missing dict key is
`keyError`; `requests.exceptions.ConnectionError` is `connectionError`;
`aiohttp.ClientConnectionError` is `clientConnectionError`;
`aiohttp.ClientResponseError` (from `raise_for_status`) is
`clientResponseError`; `requests.exceptions.HTTPError` is `httpError`. -/
inductive ClientError where
  | serviceError (msg : String)
  | keyError (key : String)
  | connectionError
  | clientConnectionError
  | clientResponseError (status : Nat)
  | httpError (status : Nat)
  deriving DecidableEq, Repr

/-- The `exception_types` tuple of the module-level decorator
`retry = Retry(exception_types=(ClientResponseError, ClientConnectionError,
HTTPError))` in `client.py`: exactly these exception classes are treated as
transient and retried.  Note `requests.exceptions.ConnectionError` (what a
sync connection failure raises) is not among them, and Python's
`RuntimeError`/`KeyError` are not either. -/
def isTransient : ClientError → Bool
  | .clientResponseError _ => true
  | .clientConnectionError => true
  | .httpError _ => true
  | _ => false

/-- The sort key relation of `sorted(response["data"], key=lambda e: e["index"])`:
compare items by their `index` field. -/
def byIndex (a b : ResponseItem α) : Prop := a.index ≤ b.index

instance : DecidableRel (byIndex (α := α)) :=
  fun a b => inferInstanceAs (Decidable (a.index ≤ b.index))

instance : IsTotal (ResponseItem α) byIndex :=
  ⟨fun a b => Int.le_total a.index b.index⟩

instance : IsTrans (ResponseItem α) byIndex :=
  ⟨fun _ _ _ h₁ h₂ => le_trans h₁ h₂⟩

/-- `sorted(response["data"], key=lambda e: e["index"])`: Python's `sorted`
is a stable sort, embedded as insertion sort over `byIndex` (any stable sort
with respect to a total preorder computes the same function). -/
def sortByIndex (items : List (ResponseItem α)) : List (ResponseItem α) :=
  items.insertionSort byIndex

/-- The shared tail of both code paths, applied to an already-parsed body:
`if "data" not in response: raise RuntimeError(response["detail"])` — where a
body lacking `detail` as well makes the subscript itself raise `KeyError` —
then sort the `data` items by `index` and project out `embedding`. -/
def processBody (body : ResponseBody α) : Except ClientError (List α) :=
  match body.data with
  | some items => .ok ((sortByIndex items).map (·.embedding))
  | none =>
    match body.detail with
    | some d => .error (.serviceError d)
    | none => .error (.keyError "detail")

/-- One attempt of the body of `encode_batch` (sync path): `requests` raises
`requests.exceptions.ConnectionError` on connection failure; otherwise
`self._session.post(...).json()` returns the parsed body for any status code
(the sync path never calls `raise_for_status`, so the HTTP status is
ignored), and the shared processing runs. -/
def encodeBatchOnce (ev : TransportEvent α) : Except ClientError (List α) :=
  match ev with
  | .connFailure => .error .connectionError
  | .response _ body => processBody body

/-- One attempt of the body of `aencode_batch` (async path): `aiohttp` raises
`ClientConnectionError` on connection failure; otherwise
`response.raise_for_status()` raises `ClientResponseError` for status >= 400,
and only then is the body parsed and the shared processing run. -/
def aencodeBatchOnce (ev : TransportEvent α) : Except ClientError (List α) :=
  match ev with
  | .connFailure => .error .clientConnectionError
  | .response status body =>
    if 400 ≤ status then .error (.clientResponseError status) else processBody body

/-- Outcome of a retry-wrapped call: a value, `RetryExhaustedError` wrapping
the last transient error, or a non-transient error propagated unmodified. -/
inductive RetryOutcome (β : Type) where
  | ok (v : β)
  | exhausted (last : ClientError)
  | immediate (e : ClientError)
  deriving DecidableEq, Repr

/-- Modelled from the spec: the retry loop of `superduperdb.misc.retry.Retry`
is not under the provided sources, only its call site is.  Per spec §4.2 it
executes the operation; on an error in the transient kinds it retries, up to
`max_attempts` total attempts (including the first); a non-transient error
propagates immediately without retry; after exhausting attempts the last
transient error propagates wrapped as `RetryExhaustedError`.  `op k` is the
outcome of the k-th invocation of the wrapped operation (counting from 0),
`remaining` the number of attempts still allowed; the second component of
the result counts how many invocations were made. -/
def withRetryAux (op : Nat → Except ClientError β) : Nat → Nat → RetryOutcome β × Nat
  | k, 0 =>
    match op k with
    | .ok v => (.ok v, 1)
    | .error e => if isTransient e then (.exhausted e, 1) else (.immediate e, 1)
  | k, 1 =>
    match op k with
    | .ok v => (.ok v, 1)
    | .error e => if isTransient e then (.exhausted e, 1) else (.immediate e, 1)
  | k, r + 2 =>
    match op k with
    | .ok v => (.ok v, 1)
    | .error e =>
      if isTransient e then
        let p := withRetryAux op (k + 1) (r + 1)
        (p.1, p.2 + 1)
      else (.immediate e, 1)

/-- Modelled from the spec: run an operation under the retry policy with a
budget of `maxAttempts` total attempts, returning the outcome together with
the number of invocations of the operation. -/
def withRetry (op : Nat → Except ClientError β) (maxAttempts : Nat) :
    RetryOutcome β × Nat :=
  withRetryAux op 0 maxAttempts

/-- The request payload both paths build:
`{"input": texts, "model": self.model_name}`. -/
structure EncodeRequest where
  input : List String
  model : String
  deriving DecidableEq, Repr

/-- Building the request payload from the client's model name and the
`texts` argument; neither path validates or transforms `texts` first. -/
def buildRequest (modelName : String) (texts : List String) : EncodeRequest :=
  { input := texts, model := modelName }

/-- `JinaAPIClient.encode_batch` under the `@retry` decorator: each attempt
sends the built request and interprets the transport event the sync way.
`transport req k` is the event the k-th attempt with payload `req` yields. -/
def encode_batch (modelName : String) (texts : List String)
    (transport : EncodeRequest → Nat → TransportEvent α) (maxAttempts : Nat) :
    RetryOutcome (List α) × Nat :=
  withRetry (fun k => encodeBatchOnce (transport (buildRequest modelName texts) k))
    maxAttempts

/-- `JinaAPIClient.aencode_batch` under the `@retry` decorator: each attempt
sends the built request and interprets the transport event the async way. -/
def aencode_batch (modelName : String) (texts : List String)
    (transport : EncodeRequest → Nat → TransportEvent α) (maxAttempts : Nat) :
    RetryOutcome (List α) × Nat :=
  withRetry (fun k => aencodeBatchOnce (transport (buildRequest modelName texts) k))
    maxAttempts

/-- Construction-time failure: no API key resolvable. -/
inductive InitError where
  | missingCredential
  deriving DecidableEq, Repr

/-- Modelled from the spec: `get_key` (`superduperdb.ext.utils`) is not under
the provided sources.  Per spec §4.1 it looks the key name up in
process-wide configuration/environment state and fails with
`MissingCredentialError` when no value is present. -/
def get_key (env : String → Option String) (keyName : String) :
    Except InitError String :=
  match env keyName with
  | some v => .ok v
  | none => .error .missingCredential

/-- The observable state `JinaAPIClient.__init__` establishes: the stored
model name and the `Authorization` header value `f"Bearer {api_key}"`. -/
structure ClientState where
  model_name : String
  authHeader : String
  deriving DecidableEq, Repr

/-- `JinaAPIClient.__init__`: `if api_key is None: api_key = get_key(KEY_NAME)`
— note the test is `is None`, any provided string (even the empty one) is
used unchanged — then the headers are derived from the resulting key.
No transport is consulted. -/
def clientInit (env : String → Option String) (api_key : Option String)
    (model_name : String) : Except InitError ClientState :=
  match api_key with
  | some k => .ok ⟨model_name, "Bearer " ++ k⟩
  | none =>
    match get_key env KEY_NAME with
    | .ok k => .ok ⟨model_name, "Bearer " ++ k⟩
    | .error e => .error e

/-! ## Helper lemmas -/

theorem sortByIndex_perm (items : List (ResponseItem α)) : sortByIndex items ~ items :=
  List.perm_insertionSort _ _

theorem length_sortByIndex (items : List (ResponseItem α)) :
    (sortByIndex items).length = items.length :=
  List.length_insertionSort _ _

theorem sortByIndex_sorted (items : List (ResponseItem α)) :
    (sortByIndex items).Sorted byIndex :=
  List.sorted_insertionSort _ _

theorem sortByIndex_of_sorted {items : List (ResponseItem α)}
    (h : items.Sorted byIndex) : sortByIndex items = items :=
  h.insertionSort_eq

theorem sortByIndex_filter_eq (items : List (ResponseItem α)) (k : Int) :
    (sortByIndex items).filter (fun it => it.index == k)
      = items.filter (fun it => it.index == k) := by
  have hpair : (items.filter (fun it => it.index == k)).Pairwise byIndex := by
    apply List.pairwise_of_forall_mem_list
    intro a ha b hb
    have ha' : a.index = k := by simpa using (List.mem_filter.mp ha).2
    have hb' : b.index = k := by simpa using (List.mem_filter.mp hb).2
    show a.index ≤ b.index
    rw [ha', hb']
  have hsub : items.filter (fun it => it.index == k) <+ sortByIndex items :=
    List.sublist_insertionSort hpair (List.filter_sublist items)
  have hsub2 : items.filter (fun it => it.index == k)
      <+ (sortByIndex items).filter (fun it => it.index == k) := by
    have h2 := hsub.filter (fun it => it.index == k)
    simpa [List.filter_filter] using h2
  have hlen : ((sortByIndex items).filter (fun it => it.index == k)).length
      = (items.filter (fun it => it.index == k)).length :=
    ((sortByIndex_perm items).filter (fun it => it.index == k)).length_eq
  exact (hsub2.eq_of_length hlen.symm).symm

theorem withRetryAux_ok {op : Nat → Except ClientError β} {k : Nat} {v : β}
    (h : op k = .ok v) : ∀ r, withRetryAux op k r = (.ok v, 1)
  | 0 => by simp [withRetryAux, h]
  | 1 => by simp [withRetryAux, h]
  | _ + 2 => by simp [withRetryAux, h]

theorem withRetryAux_immediate {op : Nat → Except ClientError β} {k : Nat}
    {e : ClientError} (h : op k = .error e) (ht : isTransient e = false) :
    ∀ r, withRetryAux op k r = (.immediate e, 1)
  | 0 => by simp [withRetryAux, h, ht]
  | 1 => by simp [withRetryAux, h, ht]
  | _ + 2 => by simp [withRetryAux, h, ht]

theorem withRetryAux_ok_after (op : Nat → Except ClientError β) (v : β) :
    ∀ (N k r : Nat), N < r →
      (∀ j, j < N → ∃ e, op (k + j) = .error e ∧ isTransient e = true) →
      op (k + N) = .ok v →
      withRetryAux op k r = (.ok v, N + 1) := by
  intro N
  induction N with
  | zero =>
    intro k r _ _ hsucc
    simpa using withRetryAux_ok (by simpa using hsucc) r
  | succ n ih =>
    intro k r hr hfail hsucc
    obtain ⟨e, he, hte⟩ := hfail 0 (Nat.succ_pos n)
    have he' : op k = .error e := by simpa using he
    obtain ⟨r', rfl⟩ : ∃ r', r = r' + 2 := ⟨r - 2, by omega⟩
    have hih : withRetryAux op (k + 1) (r' + 1) = (.ok v, n + 1) := by
      apply ih (k + 1) (r' + 1) (by omega)
      · intro j hj
        obtain ⟨e₂, h1, h2⟩ := hfail (j + 1) (by omega)
        exact ⟨e₂, by rw [show k + 1 + j = k + (j + 1) from by omega]; exact h1, h2⟩
      · rw [show k + 1 + n = k + (n + 1) from by omega]
        exact hsucc
    simp [withRetryAux, he', hte, hih]

theorem withRetryAux_exhaust (op : Nat → Except ClientError β) :
    ∀ (r : Nat), 1 ≤ r → ∀ (k : Nat),
      (∀ j, j < r → ∃ e, op (k + j) = .error e ∧ isTransient e = true) →
      ∃ e, withRetryAux op k r = (.exhausted e, r) ∧ op (k + (r - 1)) = .error e
  | 0, h, _, _ => absurd h (by omega)
  | 1, _, k, hfail => by
    obtain ⟨e, he, hte⟩ := hfail 0 (by omega)
    have he' : op k = .error e := by simpa using he
    exact ⟨e, by simp [withRetryAux, he', hte], by simpa using he⟩
  | r' + 2, _, k, hfail => by
    obtain ⟨e, he, hte⟩ := hfail 0 (by omega)
    have he' : op k = .error e := by simpa using he
    obtain ⟨e₂, haux, hop⟩ := withRetryAux_exhaust op (r' + 1) (by omega) (k + 1)
      (fun j hj => by
        obtain ⟨e₃, h1, h2⟩ := hfail (j + 1) (by omega)
        exact ⟨e₃, by rw [show k + 1 + j = k + (j + 1) from by omega]; exact h1, h2⟩)
    refine ⟨e₂, by simp [withRetryAux, he', hte, haux], ?_⟩
    rw [show k + (r' + 2 - 1) = k + 1 + (r' + 1 - 1) from by omega]
    exact hop

theorem withRetry_congr {op₁ op₂ : Nat → Except ClientError β} (m : Nat)
    (h : ∀ k, op₁ k = op₂ k) : withRetry op₁ m = withRetry op₂ m := by
  have : op₁ = op₂ := funext h
  rw [withRetry, withRetry, this]

theorem sortByIndex_map_index (items : List (ResponseItem α)) (n : Nat)
    (hperm : items.map (·.index) ~ (range n).map (fun j : Nat => (j : Int))) :
    (sortByIndex items).map (·.index) = (range n).map (fun j : Nat => (j : Int)) :=
  List.eq_of_perm_of_sorted (r := (· ≤ ·))
    (((sortByIndex_perm items).map _).trans hperm)
    (List.Pairwise.map _ (fun _ _ h => h) (sortByIndex_sorted items))
    (List.Pairwise.map _ (fun _ _ h => by exact_mod_cast h) (List.sorted_le_range n))

theorem index_nodup_of_perm_range (items : List (ResponseItem α)) (n : Nat)
    (hperm : items.map (·.index) ~ (range n).map (fun j : Nat => (j : Int))) :
    (items.map (·.index)).Nodup :=
  hperm.nodup_iff.mpr
    (List.Nodup.map (fun _ _ h => by exact_mod_cast h) (List.nodup_range n))

theorem sortByIndex_getElem (items : List (ResponseItem α)) (n i : Nat)
    (hperm : items.map (·.index) ~ (range n).map (fun j : Nat => (j : Int)))
    (hi : i < n) (it : ResponseItem α) (hmem : it ∈ items)
    (hidx : it.index = (i : Int)) :
    ((sortByIndex items).map (·.embedding))[i]? = some it.embedding := by
  have hmap := sortByIndex_map_index items n hperm
  have hlen : (sortByIndex items).length = n := by
    have h := congrArg List.length hmap
    simpa using h
  have hi' : i < (sortByIndex items).length := hlen ▸ hi
  obtain ⟨a, hA⟩ : ∃ a, (sortByIndex items)[i]? = some a :=
    ⟨_, List.getElem?_eq_getElem hi'⟩
  have hidxa : a.index = (i : Int) := by
    have h1 : ((sortByIndex items).map (·.index))[i]? = some a.index := by
      rw [List.getElem?_map, hA]; rfl
    have h2 : ((range n).map (fun j : Nat => (j : Int)))[i]? = some (i : Int) := by
      rw [List.getElem?_map, List.getElem?_range hi]; rfl
    rw [hmap] at h1
    rw [h1] at h2
    exact Option.some.inj h2
  have hamem : a ∈ items :=
    (sortByIndex_perm items).mem_iff.mp (List.getElem?_mem hA)
  have heq : a = it :=
    List.inj_on_of_nodup_map (index_nodup_of_perm_range items n hperm)
      hamem hmem (by rw [hidxa, hidx])
  rw [List.getElem?_map, hA]
  rw [heq]
  rfl

/-! ## Claims -/

/-- **C1.** When the parsed response's `data` array has one item per input
position — its `index` fields a permutation of `0 .. texts.length - 1` —
both `encode_batch` and `aencode_batch` return the `embedding` fields sorted
ascending by `index` (succeeding on the first attempt), so position `i` of
the result is the embedding of the item whose `index` is `i`. -/
theorem encode_batch_restores_order (model : String) (texts : List String)
    (items : List (ResponseItem (List ℚ))) (detail : Option String)
    (status m i : Nat) (it : ResponseItem (List ℚ))
    (hperm : items.map (·.index) ~ (range texts.length).map (fun j : Nat => (j : Int)))
    (hstatus : status < 400) (hi : i < texts.length)
    (hmem : it ∈ items) (hidx : it.index = (i : Int)) :
    encode_batch model texts (fun _ _ => .response status ⟨some items, detail⟩) m
      = (.ok ((sortByIndex items).map (·.embedding)), 1)
    ∧ aencode_batch model texts (fun _ _ => .response status ⟨some items, detail⟩) m
      = (.ok ((sortByIndex items).map (·.embedding)), 1)
    ∧ ((sortByIndex items).map (·.embedding))[i]? = some it.embedding := by
  refine ⟨?_, ?_, sortByIndex_getElem items texts.length i hperm hi it hmem hidx⟩
  · unfold encode_batch withRetry
    exact withRetryAux_ok (by simp [encodeBatchOnce, processBody]) m
  · unfold aencode_batch withRetry
    exact withRetryAux_ok
      (by simp [aencodeBatchOnce, processBody, Nat.not_le.mpr hstatus]) m

/-- Witness for C1 at the spec's concrete scenario: input `["a", "b"]`,
response `{"data": [{"index": 1, "embedding": [0.2]},
{"index": 0, "embedding": [0.1]}]}`, result `[[0.1], [0.2]]`. -/
theorem encode_batch_restores_order_witness :
    encode_batch "m" ["a", "b"]
      (fun _ _ => .response 200 ⟨some [⟨1, [0.2]⟩, ⟨0, [0.1]⟩], none⟩) 3
      = (.ok [[(0.1 : ℚ)], [0.2]], 1)
    ∧ aencode_batch "m" ["a", "b"]
      (fun _ _ => .response 200 ⟨some [⟨1, [0.2]⟩, ⟨0, [0.1]⟩], none⟩) 3
      = (.ok [[(0.1 : ℚ)], [0.2]], 1)
    ∧ ([[(0.1 : ℚ)], [0.2]] : List (List ℚ))[0]? = some [(0.1 : ℚ)] := by
  have h := encode_batch_restores_order "m" ["a", "b"]
    [⟨1, [0.2]⟩, ⟨0, [0.1]⟩] none 200 3 0 ⟨0, [0.1]⟩
    (by decide) (by omega) (by decide) (by simp) rfl
  have hs : (sortByIndex ([⟨1, [0.2]⟩, ⟨0, [0.1]⟩] : List (ResponseItem (List ℚ)))).map
      (·.embedding) = [[0.1], [0.2]] := rfl
  rw [hs] at h
  exact h

/-- **C2** as stated is false: the two code paths do *not* share one error
taxonomy.  On an HTTP 500 response whose JSON body is
`{"detail": "oops"}`, the sync path parses the body regardless of status and
raises the non-retried `RuntimeError("oops")` after one attempt, while the
async path's `raise_for_status` raises the transient `ClientResponseError`,
which is retried to exhaustion. -/
theorem sync_async_taxonomy_differs :
    encode_batch (α := List ℚ) "m" ["a"]
      (fun _ _ => .response 500 ⟨none, some "oops"⟩) 3
      = (.immediate (.serviceError "oops"), 1)
    ∧ aencode_batch (α := List ℚ) "m" ["a"]
      (fun _ _ => .response 500 ⟨none, some "oops"⟩) 3
      = (.exhausted (.clientResponseError 500), 3)
    ∧ encode_batch (α := List ℚ) "m" ["a"]
      (fun _ _ => .response 500 ⟨none, some "oops"⟩) 3
      ≠ aencode_batch (α := List ℚ) "m" ["a"]
      (fun _ _ => .response 500 ⟨none, some "oops"⟩) 3 := by
  decide

/-- **C2 amended.** Provided every attempt's transport event is a parsed
HTTP response with a success status (below 400), `encode_batch` and
`aencode_batch` produce identical outcomes: same value, same error kind,
same number of attempts. -/
theorem sync_async_agree (model : String) (texts : List String)
    (transport : EncodeRequest → Nat → TransportEvent (List ℚ)) (m : Nat)
    (h : ∀ k, ∃ status body,
      transport (buildRequest model texts) k = .response status body
        ∧ status < 400) :
    encode_batch model texts transport m = aencode_batch model texts transport m := by
  unfold encode_batch aencode_batch
  apply withRetry_congr
  intro k
  obtain ⟨s, body, hev, hs⟩ := h k
  rw [hev]
  simp [encodeBatchOnce, aencodeBatchOnce, Nat.not_le.mpr hs]

/-- Witness for the amended C2: a fixed all-success transport. -/
theorem sync_async_agree_witness :
    encode_batch (α := List ℚ) "m" ["a"]
      (fun _ _ => .response 200 ⟨some [⟨0, [0.5]⟩], none⟩) 2
      = aencode_batch (α := List ℚ) "m" ["a"]
      (fun _ _ => .response 200 ⟨some [⟨0, [0.5]⟩], none⟩) 2 :=
  sync_async_agree "m" ["a"] (fun _ _ => .response 200 ⟨some [⟨0, [0.5]⟩], none⟩) 2
    (fun _ => ⟨200, ⟨some [⟨0, [0.5]⟩], none⟩, rfl, by omega⟩)

/-- **C3.** Under the spec's retry policy, if the wrapped operation fails
with a transient error on its first `N` invocations and succeeds on
invocation `N`, then the call succeeds after `N + 1` invocations when
`N < max_attempts`, and when `N ≥ max_attempts` it fails as
`RetryExhaustedError` wrapping the last transient error (the one of
invocation `max_attempts - 1`), the operation having been invoked exactly
`max_attempts` times. -/
theorem retry_bound (op : Nat → Except ClientError (List (List ℚ)))
    (N maxAttempts : Nat) (v : List (List ℚ)) (hmax : 1 ≤ maxAttempts)
    (hfail : ∀ j, j < N → ∃ e, op j = .error e ∧ isTransient e = true)
    (hsucc : op N = .ok v) :
    (N < maxAttempts → withRetry op maxAttempts = (.ok v, N + 1))
    ∧ (maxAttempts ≤ N →
        ∃ e, withRetry op maxAttempts = (.exhausted e, maxAttempts)
          ∧ op (maxAttempts - 1) = .error e) := by
  constructor
  · intro hlt
    exact withRetryAux_ok_after op v N 0 maxAttempts hlt
      (fun j hj => by simpa using hfail j hj) (by simpa using hsucc)
  · intro hle
    obtain ⟨e, h1, h2⟩ := withRetryAux_exhaust op maxAttempts hmax 0
      (fun j hj => by simpa using hfail j (by omega))
    exact ⟨e, h1, by simpa using h2⟩

/-- Witness for C3: a transport failing transiently twice then succeeding —
it succeeds in 3 attempts under `max_attempts = 3` and exhausts all 3
attempts under `max_attempts = 3` when it would only succeed on the 6th. -/
theorem retry_bound_witness :
    withRetry (fun k => if k < 2 then .error .clientConnectionError
      else .ok ([] : List (List ℚ))) 3 = (.ok [], 3)
    ∧ ∃ e, withRetry (fun k => if k < 5 then .error .clientConnectionError
        else .ok ([] : List (List ℚ))) 3 = (.exhausted e, 3)
      ∧ (fun k => if k < 5 then (.error .clientConnectionError :
          Except ClientError (List (List ℚ))) else .ok []) (3 - 1) = .error e := by
  constructor
  · exact (retry_bound _ 2 3 [] (by omega)
      (fun j hj => ⟨.clientConnectionError, by simp [hj], rfl⟩)
      (by simp)).1 (by omega)
  · exact (retry_bound _ 5 3 [] (by omega)
      (fun j hj => ⟨.clientConnectionError, by simp [hj, Nat.lt_trans hj], rfl⟩)
      (by simp)).2 (by omega)

/-- **C4.** A response that parses at the transport level but lacks the
`data` key raises the service error after exactly one invocation on both
paths: `RuntimeError` is not among the transient exception types, so the
retry policy propagates it immediately. -/
theorem service_error_not_retried (model : String) (texts : List String)
    (transport : EncodeRequest → Nat → TransportEvent (List ℚ)) (m status : Nat)
    (d : String)
    (hev : transport (buildRequest model texts) 0 = .response status ⟨none, some d⟩)
    (hstatus : status < 400) :
    isTransient (.serviceError d) = false
    ∧ encode_batch model texts transport m = (.immediate (.serviceError d), 1)
    ∧ aencode_batch model texts transport m = (.immediate (.serviceError d), 1) := by
  refine ⟨rfl, ?_, ?_⟩
  · unfold encode_batch withRetry
    refine withRetryAux_immediate ?_ ?_ m
    · simp [encodeBatchOnce, hev, processBody]
    · rfl
  · unfold aencode_batch withRetry
    refine withRetryAux_immediate ?_ ?_ m
    · simp [aencodeBatchOnce, hev, processBody, Nat.not_le.mpr hstatus]
    · rfl

/-- Witness for C4: a malformed response is surfaced after exactly one
attempt even with a large attempt budget. -/
theorem service_error_not_retried_witness :
    isTransient (.serviceError "invalid model") = false
    ∧ encode_batch (α := List ℚ) "m" ["a"]
      (fun _ _ => .response 200 ⟨none, some "invalid model"⟩) 10
      = (.immediate (.serviceError "invalid model"), 1)
    ∧ aencode_batch (α := List ℚ) "m" ["a"]
      (fun _ _ => .response 200 ⟨none, some "invalid model"⟩) 10
      = (.immediate (.serviceError "invalid model"), 1) :=
  service_error_not_retried "m" ["a"]
    (fun _ _ => .response 200 ⟨none, some "invalid model"⟩) 10 200
    "invalid model" rfl (by omega)

/-- **C5** holds for the async path only; the sync path contradicts the
declared intent.  `requests.exceptions.HTTPError` is listed among the
transient retryable exception types at `client.py` line 14, but
`encode_batch` never calls `raise_for_status`, so an HTTP 500 response is
parsed as a body: the sync path surfaces the non-retried
`RuntimeError("oops")` after one attempt, while the async path classifies
the same exchange as transient `ClientResponseError` and retries it. -/
theorem http_error_transient_async_only :
    isTransient (.httpError 500) = true
    ∧ isTransient (.clientResponseError 500) = true
    ∧ aencode_batch (α := List ℚ) "m" ["a"]
      (fun _ _ => .response 500 ⟨none, some "oops"⟩) 3
      = (.exhausted (.clientResponseError 500), 3)
    ∧ encode_batch (α := List ℚ) "m" ["a"]
      (fun _ _ => .response 500 ⟨none, some "oops"⟩) 3
      = (.immediate (.serviceError "oops"), 1) := by
  decide

/-- **C6** as stated is false: when both `data` and `detail` are absent, the
subscript `response["detail"]` itself fails with `KeyError`, not with a
`ServiceError` carrying a generic message. -/
theorem missing_detail_keyerror :
    processBody (ResponseBody.mk (α := List ℚ) none none)
      = .error (.keyError "detail")
    ∧ ¬ ∃ s, processBody (ResponseBody.mk (α := List ℚ) none none)
      = .error (.serviceError s) := by
  constructor
  · rfl
  · rintro ⟨s, hs⟩
    simp [processBody] at hs

/-- **C6 amended.** For every response body lacking the `data` key, both
paths fail after one attempt with the service error carrying the `detail`
message when `detail` is present, and with a `KeyError` on the `detail`
subscript when it is absent. -/
theorem missing_data_detail_message (model : String) (texts : List String)
    (transport : EncodeRequest → Nat → TransportEvent (List ℚ)) (m status : Nat)
    (body : ResponseBody (List ℚ))
    (hev : transport (buildRequest model texts) 0 = .response status body)
    (hstatus : status < 400) (hdata : body.data = none) :
    encode_batch model texts transport m
      = (.immediate (match body.detail with
          | some d => .serviceError d
          | none => .keyError "detail"), 1)
    ∧ aencode_batch model texts transport m
      = (.immediate (match body.detail with
          | some d => .serviceError d
          | none => .keyError "detail"), 1) := by
  have hbody : processBody body
      = .error (match body.detail with
          | some d => .serviceError d
          | none => .keyError "detail") := by
    rw [processBody, hdata]
    cases body.detail <;> rfl
  have htr : isTransient (match body.detail with
      | some d => .serviceError d
      | none => .keyError "detail") = false := by
    cases body.detail <;> rfl
  constructor
  · unfold encode_batch withRetry
    refine withRetryAux_immediate ?_ htr m
    simp [encodeBatchOnce, hev, hbody]
  · unfold aencode_batch withRetry
    refine withRetryAux_immediate ?_ htr m
    simp [aencodeBatchOnce, hev, Nat.not_le.mpr hstatus, hbody]

/-- Witness for the amended C6 at the spec's concrete scenario: the body
`{"detail": "invalid model"}` yields the service error message
`"invalid model"` on both paths. -/
theorem missing_data_detail_message_witness :
    encode_batch (α := List ℚ) "m" ["a"]
      (fun _ _ => .response 200 ⟨none, some "invalid model"⟩) 3
      = (.immediate (.serviceError "invalid model"), 1)
    ∧ aencode_batch (α := List ℚ) "m" ["a"]
      (fun _ _ => .response 200 ⟨none, some "invalid model"⟩) 3
      = (.immediate (.serviceError "invalid model"), 1) :=
  missing_data_detail_message "m" ["a"]
    (fun _ _ => .response 200 ⟨none, some "invalid model"⟩) 3 200
    ⟨none, some "invalid model"⟩ rfl (by omega) rfl

/-- **C7** as stated is false: `__init__` tests `api_key is None`, not
non-emptiness.  With the explicit empty string and no environment value,
construction succeeds with the header `"Bearer "` instead of failing with
`MissingCredentialError`; with an environment value present, the empty
string still wins over the environment. -/
theorem empty_api_key_used_unchanged :
    clientInit (fun _ => none) (some "") "m" = .ok ⟨"m", "Bearer "⟩
    ∧ clientInit (fun k => if k == "JINA_API_KEY" then some "sk-env" else none)
      (some "") "m" = .ok ⟨"m", "Bearer "⟩
    ∧ clientInit (fun _ => none) (some "") "m"
      ≠ .error .missingCredential :=
  ⟨rfl, rfl, fun h => Except.noConfusion h⟩

/-- **C7 amended.** Credential resolution at construction: an explicitly
provided key — even the empty string — is used unchanged; with no explicit
key the value of `JINA_API_KEY` in the environment is used; when the
explicit key is absent and the environment has no value, construction fails
with `MissingCredentialError`; no transport is consulted in any case. -/
theorem credential_resolution (env : String → Option String) (model : String) :
    (∀ k : String, clientInit env (some k) model = .ok ⟨model, "Bearer " ++ k⟩)
    ∧ (∀ v, env KEY_NAME = some v →
        clientInit env none model = .ok ⟨model, "Bearer " ++ v⟩)
    ∧ (env KEY_NAME = none →
        clientInit env none model = .error .missingCredential) := by
  refine ⟨fun k => rfl, fun v hv => ?_, fun hnone => ?_⟩
  · simp [clientInit, get_key, hv]
  · simp [clientInit, get_key, hnone]

/-- Witness for the amended C7 on concrete environments. -/
theorem credential_resolution_witness :
    clientInit (fun _ => none) (some "sk-explicit") "m"
      = .ok ⟨"m", "Bearer " ++ "sk-explicit"⟩
    ∧ clientInit (fun k => if k == "JINA_API_KEY" then some "sk-env" else none)
      none "m" = .ok ⟨"m", "Bearer " ++ "sk-env"⟩
    ∧ clientInit (fun _ => none) none "m" = .error .missingCredential :=
  ⟨(credential_resolution (fun _ => none) "m").1 "sk-explicit",
   (credential_resolution
      (fun k => if k == "JINA_API_KEY" then some "sk-env" else none) "m").2.1
      "sk-env" rfl,
   (credential_resolution (fun _ => none) "m").2.2 rfl⟩

/-- **C8.** On a parsed response carrying a `data` array, the returned
sequence has exactly one embedding per `data` item: its length equals
`len(texts)` when the service is well-behaved (one item per input), and a
mismatched item count propagates as the result length unchanged — no
padding, no truncation. -/
theorem encode_batch_length (model : String) (texts : List String)
    (items : List (ResponseItem (List ℚ))) (detail : Option String) (status m : Nat)
    (hstatus : status < 400) :
    encode_batch model texts (fun _ _ => .response status ⟨some items, detail⟩) m
      = (.ok ((sortByIndex items).map (·.embedding)), 1)
    ∧ aencode_batch model texts (fun _ _ => .response status ⟨some items, detail⟩) m
      = (.ok ((sortByIndex items).map (·.embedding)), 1)
    ∧ ((sortByIndex items).map (·.embedding)).length = items.length
    ∧ (items.length = texts.length →
        ((sortByIndex items).map (·.embedding)).length = texts.length) := by
  have hlen : ((sortByIndex items).map (·.embedding)).length = items.length := by
    rw [List.length_map, length_sortByIndex]
  refine ⟨?_, ?_, hlen, fun hwell => hlen.trans hwell⟩
  · unfold encode_batch withRetry
    exact withRetryAux_ok (by simp [encodeBatchOnce, processBody]) m
  · unfold aencode_batch withRetry
    exact withRetryAux_ok
      (by simp [aencodeBatchOnce, processBody, Nat.not_le.mpr hstatus]) m

/-- Witness for C8: two inputs with a two-item response give a two-element
result; the same response against three inputs still gives two elements. -/
theorem encode_batch_length_witness :
    encode_batch "x" ["a", "b"]
      (fun _ _ => .response 200 ⟨some [⟨1, [0.2]⟩, ⟨0, [0.1]⟩], none⟩) 3
      = (.ok ((sortByIndex [⟨1, [(0.2 : ℚ)]⟩, ⟨0, [0.1]⟩]).map (·.embedding)), 1)
    ∧ ((sortByIndex [⟨1, [(0.2 : ℚ)]⟩, ⟨0, [0.1]⟩]).map (·.embedding)).length
      = (["a", "b"] : List String).length
    ∧ ((sortByIndex [⟨1, [(0.2 : ℚ)]⟩, ⟨0, [0.1]⟩]).map (·.embedding)).length
      ≠ (["a", "b", "c"] : List String).length := by
  have h := encode_batch_length "x" ["a", "b"] [⟨1, [0.2]⟩, ⟨0, [0.1]⟩]
    none 200 3 (by omega)
  exact ⟨h.1, h.2.2.2 (by decide), by decide⟩

/-- **C9.** The index-based reordering is stable and idempotent: applied to
an already-sorted list of result items it returns exactly the same list, and
items with equal `index` values keep their relative order from the
response (their subsequence, extracted per index value, is unchanged). -/
theorem sortByIndex_stable_idempotent
    (items already : List (ResponseItem (List ℚ))) (k : Int)
    (h : already.Sorted byIndex) :
    sortByIndex already = already
    ∧ (sortByIndex items).filter (fun it => it.index == k)
      = items.filter (fun it => it.index == k) :=
  ⟨sortByIndex_of_sorted h, sortByIndex_filter_eq items k⟩

/-- Witness for C9: a sorted list with a duplicated index 0 is returned
unchanged, and in a shuffled list the two index-0 items keep their relative
order. -/
theorem sortByIndex_stable_idempotent_witness :
    sortByIndex ([⟨0, [0.1]⟩, ⟨0, [0.2]⟩, ⟨1, [0.3]⟩] : List (ResponseItem (List ℚ)))
      = [⟨0, [0.1]⟩, ⟨0, [0.2]⟩, ⟨1, [0.3]⟩]
    ∧ (sortByIndex ([⟨1, [0.3]⟩, ⟨0, [0.1]⟩, ⟨0, [0.2]⟩] :
        List (ResponseItem (List ℚ)))).filter (fun it => it.index == 0)
      = ([⟨1, [0.3]⟩, ⟨0, [0.1]⟩, ⟨0, [0.2]⟩] :
        List (ResponseItem (List ℚ))).filter (fun it => it.index == 0) :=
  sortByIndex_stable_idempotent
    [⟨1, [0.3]⟩, ⟨0, [0.1]⟩, ⟨0, [0.2]⟩]
    [⟨0, [0.1]⟩, ⟨0, [0.2]⟩, ⟨1, [0.3]⟩] 0 (by decide)

/-- **C10.** Neither operation validates `texts` locally: the request is
built with the given input unchanged (empty list included), no
client-side precondition error exists, and the outcome depends only on how
the transport answers that request — two transports that agree on it yield
identical outcomes on both paths. -/
theorem no_local_validation (model : String) (texts : List String) (m : Nat)
    (t₁ t₂ : EncodeRequest → Nat → TransportEvent (List ℚ))
    (h : ∀ k, t₁ (buildRequest model texts) k = t₂ (buildRequest model texts) k) :
    (buildRequest model texts).input = texts
    ∧ encode_batch model texts t₁ m = encode_batch model texts t₂ m
    ∧ aencode_batch model texts t₁ m = aencode_batch model texts t₂ m := by
  refine ⟨rfl, ?_, ?_⟩
  · unfold encode_batch
    exact withRetry_congr m (fun k => by rw [h k])
  · unfold aencode_batch
    exact withRetry_congr m (fun k => by rw [h k])

/-- Witness for C10: the empty input list is sent as-is and the call
returns whatever the service answers — here an empty `data` array, hence an
empty result, with no client-side error. -/
theorem no_local_validation_witness :
    (buildRequest "m" []).input = ([] : List String)
    ∧ encode_batch (α := List ℚ) "m" []
      (fun _ _ => .response 200 ⟨some [], none⟩) 3
      = encode_batch (α := List ℚ) "m" []
      (fun _ _ => .response 200 ⟨some [], none⟩) 3
    ∧ encode_batch (α := List ℚ) "m" []
      (fun _ _ => .response 200 ⟨some [], none⟩) 3 = (.ok [], 1) := by
  have h := no_local_validation "m" [] 3
    (fun _ _ => .response 200 ⟨some [], none⟩)
    (fun _ _ => .response 200 ⟨some [], none⟩) (fun _ => rfl)
  exact ⟨h.1, h.2.1, by decide⟩

end JinaClient
